import Mathlib

/-!
Verification of the file-backed CRUD resource layer of the fbr-shop server
(`src/server/server.js`) against its specification.

The server keeps two flat JSON collections (products, users).  Each route
handler reads the whole collection, scans or mutates it in memory, and for
writes persists the whole collection back.  We embed the handlers as pure
functions from the stored collection (plus request data) to an HTTP-level
response together with the optional `writeData` payload.

Modelling choices, stated once:
* JSON/JS values are modelled flat (the records of both collections are flat
  objects) and numbers are modelled as integers (every id is an integer and no
  arithmetic is performed on any other numeric field).  `vnan` models the JS
  number NaN, `vundefined` the JS value `undefined`.
* A JS object is an insertion-ordered association list with unique keys, as
  produced by `JSON.parse`.  Object-literal evaluation with spreads, e.g.
  `{ id: v, ...body }`, assigns keys in order: assigning an existing key
  overwrites its value in place, assigning a fresh key appends it.
* `fs.readFileSync`/`JSON.parse` are external calls; their outcome is modelled
  abstractly by `FileState`.  `nanoid(6)` is an external RNG; the generated id
  is passed to the user-create handler as a parameter.
-/

namespace FbrShop

/-- Flat JS runtime values as they occur in the two collections. -/
inductive Value where
  | vnum (n : Int)
  | vnan
  | vundefined
  | vstr (s : String)
  | vbool (b : Bool)
  | vnull
  deriving DecidableEq, Repr

/-- A JS object: insertion-ordered association list of fields. -/
abbrev Obj := List (String × Value)

/-- JS strict equality `===` on our values: `NaN === x` is false for every x,
including NaN itself; no coercion otherwise. -/
def strictEq : Value → Value → Bool
  | .vnan, _ => false
  | _, .vnan => false
  | a, b => a == b

/-- Property read `o.k`: the value of the first (hence, keys being unique,
the only) binding of `k`, or `none` for absent. -/
def getField (o : Obj) (k : String) : Option Value :=
  (o.find? (fun p => p.1 == k)).map (fun p => p.2)

/-- Property read `o.k` as a JS expression: an absent key reads as `undefined`. -/
def getFieldU (o : Obj) (k : String) : Value :=
  (getField o k).getD .vundefined

/-- Property assignment `o[k] = v` during object-literal evaluation: an
existing key is overwritten in place, a fresh key is appended. -/
def setField : Obj → String → Value → Obj
  | [], k, v => [(k, v)]
  | p :: os, k, v => if p.1 == k then (k, v) :: os else p :: setField os k v

/-- Object spread `{ ...o, ...src }`: the fields of `src` are assigned into
`o` in order. -/
def spreadInto (o : Obj) (src : Obj) : Obj :=
  src.foldl (fun acc p => setField acc p.1 p.2) o

/-- Outcome of `fs.readFileSync` + `JSON.parse` on a collection file. -/
inductive FileState where
  | missing
  | unreadable
  | invalid
  | valid (records : List Obj)

/-- `readData` (server.js:57-64): returns the parsed JSON contents; a read or
parse failure is caught, logged and converted to `[]`.  The function is total:
no error propagates to the caller. -/
def readData : FileState → List Obj
  | .valid records => records
  | .missing => []
  | .unreadable => []
  | .invalid => []

/-- Decimal digit value of a character, if any. -/
def decDigitVal (c : Char) : Option Nat :=
  if c.isDigit then some (c.toNat - 48) else none

/-- Hexadecimal digit value of a character, if any. -/
def hexDigitVal (c : Char) : Option Nat :=
  if c.isDigit then some (c.toNat - 48)
  else if 'a' ≤ c && c ≤ 'f' then some (c.toNat - 97 + 10)
  else if 'A' ≤ c && c ≤ 'F' then some (c.toNat - 65 + 10)
  else none

/-- Accumulate the value of the longest leading run of digits. -/
def parseDigitsAux (base : Nat) (dv : Char → Option Nat) : List Char → Nat → Nat
  | [], acc => acc
  | c :: cs, acc =>
    match dv c with
    | some d => parseDigitsAux base dv cs (acc * base + d)
    | none => acc

/-- JS `parseInt(s)` with no radix argument: skip leading whitespace, optional
sign, optional `0x`/`0X` hex prefix, then the longest leading run of digits;
`none` models NaN (no digits at all). -/
def parseIntJS (s : String) : Option Int :=
  let cs := s.data.dropWhile (fun c => c.isWhitespace)
  let signed : Int × List Char :=
    match cs with
    | '-' :: rest => (-1, rest)
    | '+' :: rest => (1, rest)
    | _ => (1, cs)
  let based : Nat × (Char → Option Nat) × List Char :=
    match signed.2 with
    | '0' :: 'x' :: rest => (16, hexDigitVal, rest)
    | '0' :: 'X' :: rest => (16, hexDigitVal, rest)
    | rest => (10, decDigitVal, rest)
  match based.2.2 with
  | [] => none
  | c :: _ =>
    match based.2.1 c with
    | none => none
    | some _ => some (signed.1 * (parseDigitsAux based.1 based.2.1 based.2.2 0 : Nat))

/-- `parseInt(req.params.id)` as a JS value: NaN when parsing fails. -/
def parseIntValue (s : String) : Value :=
  match parseIntJS s with
  | some n => .vnum n
  | none => .vnan

/-- JS `Number()` coercion on our flat values (`none` = NaN).  String
conversion accepts a whitespace-trimmed optional-sign integer literal or a
`0x` hex literal; the empty string converts to 0. -/
def numberFromString (s : String) : Option Int :=
  let cs := (s.data.dropWhile (fun c => c.isWhitespace)).reverse.dropWhile
      (fun c => c.isWhitespace) |>.reverse
  match cs with
  | [] => some 0
  | '0' :: 'x' :: rest =>
    if rest ≠ [] && rest.all (fun c => (hexDigitVal c).isSome) then
      some (parseDigitsAux 16 hexDigitVal rest 0) else none
  | '0' :: 'X' :: rest =>
    if rest ≠ [] && rest.all (fun c => (hexDigitVal c).isSome) then
      some (parseDigitsAux 16 hexDigitVal rest 0) else none
  | '-' :: rest =>
    if rest ≠ [] && rest.all (fun c => c.isDigit) then
      some (-(parseDigitsAux 10 decDigitVal rest 0 : Int)) else none
  | '+' :: rest =>
    if rest ≠ [] && rest.all (fun c => c.isDigit) then
      some (parseDigitsAux 10 decDigitVal rest 0) else none
  | rest =>
    if rest.all (fun c => c.isDigit) then
      some (parseDigitsAux 10 decDigitVal rest 0) else none

/-- JS `Number()` coercion of a value, `none` = NaN. -/
def toNumberV : Value → Option Int
  | .vnum n => some n
  | .vnan => none
  | .vundefined => none
  | .vnull => some 0
  | .vbool b => some (if b then 1 else 0)
  | .vstr s => numberFromString s

/-- Maximum of a list of integers; `Math.max` of a nonempty argument list
(the empty case is never reached: the caller guards on `length > 0`). -/
def listMaxInt : List Int → Int
  | [] => 0
  | [n] => n
  | n :: m :: ns => max n (listMaxInt (m :: ns))

/-- `Math.max(...vs)`: each argument is coerced to a number; any NaN makes the
result NaN (`none`). -/
def mathMax (vs : List Value) : Option Int :=
  if vs.any (fun v => (toNumberV v).isNone) then none
  else some (listMaxInt (vs.filterMap toNumberV))

/-- The id of the product to create (server.js:218):
`products.length > 0 ? Math.max(...products.map(p => p.id)) + 1 : 1`. -/
def nextIdVal (ps : List Obj) : Value :=
  if ps.length > 0 then
    match mathMax (ps.map (fun p => getFieldU p "id")) with
    | some m => .vnum (m + 1)
    | none => .vnan
  else .vnum 1

/-- HTTP-level response of a handler. -/
inductive Resp where
  | ok (body : Obj)
  | okList (body : List Obj)
  | okMsg (msg : String)
  | created (body : Obj)
  | notFound (msg : String)
  deriving DecidableEq, Repr

/-- The predicate `p => p.id === parseInt(req.params.id)` of the product
handlers. -/
def productIdPred (idStr : String) (p : Obj) : Bool :=
  strictEq (getFieldU p "id") (parseIntValue idStr)

/-- The predicate `u => u.id === req.params.id` of the user handlers. -/
def userIdPred (idStr : String) (u : Obj) : Bool :=
  strictEq (getFieldU u "id") (.vstr idStr)

/-- `GET /api/products/:id` (server.js:164-172). -/
def getProductById (ps : List Obj) (idStr : String) : Resp :=
  match ps.find? (productIdPred idStr) with
  | some p => .ok p
  | none => .notFound "Товар не найден"

/-- `POST /api/products` (server.js:215-224): the new record is the literal
`{ id: <next id>, ...req.body }`, appended and persisted.  The second
component is the `writeData` payload. -/
def postProduct (ps : List Obj) (body : Obj) : Resp × Option (List Obj) :=
  let newProduct := spreadInto [("id", nextIdVal ps)] body
  (.created newProduct, some (ps ++ [newProduct]))

/-- The updated record `{ ...existing, ...body, id: existing.id }` of the two
PUT handlers. -/
def mergeUpdate (r body : Obj) : Obj :=
  setField (spreadInto r body) "id" (getFieldU r "id")

/-- `PUT /api/products/:id` (server.js:270-280).  The `getD []` default is
unreachable: `findIdx?` only returns indices below the length. -/
def putProduct (ps : List Obj) (idStr : String) (body : Obj) :
    Resp × Option (List Obj) :=
  match ps.findIdx? (productIdPred idStr) with
  | some i =>
    let m := mergeUpdate ((ps.get? i).getD []) body
    (.ok m, some (ps.set i m))
  | none => (.notFound "Товар не найден", none)

/-- `DELETE /api/products/:id` (server.js:303-313): `splice(index, 1)` then
persist. -/
def deleteProduct (ps : List Obj) (idStr : String) : Resp × Option (List Obj) :=
  match ps.findIdx? (productIdPred idStr) with
  | some i => (.okMsg "Товар удален", some (ps.eraseIdx i))
  | none => (.notFound "Товар не найден", none)

/-- `GET /api/users/:id` (server.js:363-371). -/
def getUserById (us : List Obj) (idStr : String) : Resp :=
  match us.find? (userIdPred idStr) with
  | some u => .ok u
  | none => .notFound "Пользователь не найден"

/-- `POST /api/users` (server.js:403-412); `gid` is the externally generated
`nanoid(6)`. -/
def postUser (us : List Obj) (gid : String) (body : Obj) :
    Resp × Option (List Obj) :=
  let newUser := spreadInto [("id", .vstr gid)] body
  (.created newUser, some (us ++ [newUser]))

/-- `PUT /api/users/:id` (server.js:450-460). -/
def putUser (us : List Obj) (idStr : String) (body : Obj) :
    Resp × Option (List Obj) :=
  match us.findIdx? (userIdPred idStr) with
  | some i =>
    let m := mergeUpdate ((us.get? i).getD []) body
    (.ok m, some (us.set i m))
  | none => (.notFound "Пользователь не найден", none)

/-- `DELETE /api/users/:id` (server.js:483-493). -/
def deleteUser (us : List Obj) (idStr : String) : Resp × Option (List Obj) :=
  match us.findIdx? (userIdPred idStr) with
  | some i => (.okMsg "Пользователь удален", some (us.eraseIdx i))
  | none => (.notFound "Пользователь не найден", none)

/-- Stored contents after a handler ran: the `writeData` payload if the
handler wrote, the previous contents otherwise. -/
def afterWrite (w : Option (List Obj)) (d : List Obj) : List Obj :=
  w.getD d

/-! ### Lemmas: field access and object assembly -/

theorem getField_nil (k : String) : getField [] k = none := rfl

theorem getField_cons (p : String × Value) (os : Obj) (k : String) :
    getField (p :: os) k = if p.1 == k then some p.2 else getField os k := by
  by_cases h : p.1 == k <;> simp [getField, List.find?_cons, h]

theorem getField_eq_none (o : Obj) (k : String) :
    getField o k = none ↔ ∀ p ∈ o, p.1 ≠ k := by
  simp [getField, List.find?_eq_none]

theorem strictEq_vnan_right (v : Value) : strictEq v .vnan = false := by
  cases v <;> rfl

theorem strictEq_vnum_iff (a b : Int) :
    strictEq (.vnum a) (.vnum b) = true ↔ a = b := by
  simp [strictEq]

theorem getField_setField_self (o : Obj) (k : String) (v : Value) :
    getField (setField o k v) k = some v := by
  induction o with
  | nil => simp [setField, getField_cons]
  | cons p os ih =>
    by_cases h : p.1 == k
    · simp [setField, h, getField_cons]
    · simp [setField, h, getField_cons, ih]

theorem getField_setField_ne (o : Obj) (k k' : String) (v : Value)
    (h : k' ≠ k) : getField (setField o k v) k' = getField o k' := by
  have hk : (k == k') = false := beq_eq_false_iff_ne.mpr (Ne.symm h)
  induction o with
  | nil => simp [setField, getField_cons, getField_nil, hk]
  | cons p os ih =>
    obtain ⟨a, b⟩ := p
    by_cases hp : a == k
    · have ha : a = k := by simpa using hp
      subst ha
      simp [setField, hp, getField_cons, hk]
    · simp [setField, hp, getField_cons, ih]

theorem spreadInto_nil (o : Obj) : spreadInto o [] = o := rfl

theorem spreadInto_cons (o : Obj) (p : String × Value) (src : Obj) :
    spreadInto o (p :: src) = spreadInto (setField o p.1 p.2) src := rfl

theorem getField_spreadInto_of_none (o src : Obj) (k : String)
    (h : getField src k = none) :
    getField (spreadInto o src) k = getField o k := by
  induction src generalizing o with
  | nil => rfl
  | cons p rest ih =>
    rw [getField_cons] at h
    by_cases hp : p.1 == k
    · simp [hp] at h
    · simp only [hp, if_false] at h
      rw [spreadInto_cons, ih _ h, getField_setField_ne]
      intro e
      exact absurd (by simp [e]) hp

theorem getField_spreadInto_of_some (o src : Obj) (k : String) (v : Value)
    (hnd : (src.map Prod.fst).Nodup) (h : getField src k = some v) :
    getField (spreadInto o src) k = some v := by
  induction src generalizing o with
  | nil => simp [getField_nil] at h
  | cons p rest ih =>
    rw [getField_cons] at h
    rw [List.map_cons, List.nodup_cons] at hnd
    by_cases hp : p.1 == k
    · simp only [hp, if_true, Option.some.injEq] at h
      have hk : p.1 = k := by simpa using hp
      have hrest : getField rest k = none := by
        rw [getField_eq_none]
        intro q hq e
        exact hnd.1 (hk ▸ e ▸ List.mem_map_of_mem Prod.fst hq)
      rw [spreadInto_cons, getField_spreadInto_of_none _ _ _ hrest, hk, h,
        getField_setField_self]
    · simp only [hp, if_false] at h
      rw [spreadInto_cons]
      exact ih _ hnd.2 h

theorem setField_eq_append (o : Obj) (k : String) (v : Value)
    (h : ∀ p ∈ o, p.1 ≠ k) : setField o k v = o ++ [(k, v)] := by
  induction o with
  | nil => rfl
  | cons p os ih =>
    have hp : (p.1 == k) = false := by simp [h p (List.mem_cons_self p os)]
    simp [setField, hp, ih (fun q hq => h q (List.mem_cons_of_mem p hq))]

theorem spreadInto_eq_append (o src : Obj)
    (hd : ∀ p ∈ src, ∀ q ∈ o, q.1 ≠ p.1)
    (hnd : (src.map Prod.fst).Nodup) :
    spreadInto o src = o ++ src := by
  induction src generalizing o with
  | nil => simp [spreadInto_nil]
  | cons p rest ih =>
    rw [List.map_cons, List.nodup_cons] at hnd
    rw [spreadInto_cons,
      setField_eq_append o p.1 p.2 (fun q hq => hd p (List.mem_cons_self p rest) q hq)]
    rw [ih (o ++ [(p.1, p.2)]) ?_ hnd.2]
    · simp
    · intro r hr q hq
      rcases List.mem_append.mp hq with hq | hq
      · exact hd r (List.mem_cons_of_mem p hr) q hq
      · have : q = (p.1, p.2) := by simpa using hq
        subst this
        intro e
        exact hnd.1 (e ▸ List.mem_map_of_mem Prod.fst hr)

/-! ### Lemmas: Math.max and the next product id -/

theorem le_listMaxInt (l : List Int) (n : Int) (h : n ∈ l) :
    n ≤ listMaxInt l := by
  induction l with
  | nil => cases h
  | cons a t ih =>
    cases t with
    | nil =>
      have : n = a := by simpa using h
      simp [listMaxInt, this]
    | cons b t2 =>
      rcases List.mem_cons.mp h with rfl | h
      · exact le_max_left _ _
      · exact le_trans (ih h) (le_max_right _ _)

theorem listMaxInt_mem (l : List Int) (h : l ≠ []) : listMaxInt l ∈ l := by
  induction l with
  | nil => exact absurd rfl h
  | cons a t ih =>
    cases t with
    | nil => simp [listMaxInt]
    | cons b t2 =>
      show max a (listMaxInt (b :: t2)) ∈ a :: b :: t2
      rcases max_choice a (listMaxInt (b :: t2)) with h1 | h1 <;> rw [h1]
      · exact List.mem_cons_self _ _
      · exact List.mem_cons_of_mem _ (ih (by simp))

theorem mathMax_vnum (ns : List Int) :
    mathMax (ns.map Value.vnum) = some (listMaxInt ns) := by
  have h1 : ∀ n : Int, toNumberV (Value.vnum n) = some n := fun _ => rfl
  have h2 : List.filterMap (toNumberV ∘ Value.vnum) ns = ns := by
    induction ns with
    | nil => rfl
    | cons a t ih => simp [List.filterMap_cons, Function.comp, ih, toNumberV]
  simp [mathMax, List.any_map, Function.comp, h1, List.filterMap_map, h2]

theorem nextIdVal_of_ids (ps : List Obj) (ns : List Int)
    (hids : ps.map (fun p => getFieldU p "id") = ns.map Value.vnum) :
    nextIdVal ps = .vnum (if 0 < ps.length then listMaxInt ns + 1 else 1) := by
  by_cases h : 0 < ps.length
  · simp [nextIdVal, h, hids, mathMax_vnum]
  · simp [nextIdVal, h]

theorem nextIdVal_fresh (ps : List Obj) (ns : List Int)
    (hids : ps.map (fun p => getFieldU p "id") = ns.map Value.vnum) :
    ∃ K : Int, nextIdVal ps = .vnum K ∧
      ∀ q ∈ ps, getFieldU q "id" ≠ .vnum K := by
  refine ⟨if 0 < ps.length then listMaxInt ns + 1 else 1,
    nextIdVal_of_ids ps ns hids, ?_⟩
  intro q hq
  have hmem : getFieldU q "id" ∈ ns.map Value.vnum := by
    rw [← hids]
    exact List.mem_map_of_mem _ hq
  rcases List.mem_map.mp hmem with ⟨n, hn, he⟩
  rw [← he]
  have hpos : 0 < ps.length := List.length_pos.mpr (by rintro rfl; cases hq)
  intro e
  have : n = listMaxInt ns + 1 := by
    have := Value.vnum.inj e
    simpa [hpos] using this
  have hle : n ≤ listMaxInt ns := le_listMaxInt ns n hn
  omega

/-! ### Lemmas: locating the first match -/

theorem findIdx?_first_match (pred : Obj → Bool) (l1 l2 : List Obj) (r : Obj)
    (h1 : ∀ x ∈ l1, pred x = false) (hr : pred r = true) :
    (l1 ++ r :: l2).findIdx? pred = some l1.length := by
  rw [List.findIdx?_append, List.findIdx?_eq_none_iff.mpr h1]
  simp [List.findIdx?_cons, hr]

theorem findIdx?_none_of_all_false (pred : Obj → Bool) (l : List Obj)
    (h : ∀ x ∈ l, pred x = false) : l.findIdx? pred = none :=
  List.findIdx?_eq_none_iff.mpr h

theorem get?_middle (l1 l2 : List Obj) (r : Obj) :
    (l1 ++ r :: l2).get? l1.length = some r := by
  rw [List.get?_eq_getElem?, List.getElem?_append_right (le_refl _)]
  simp

theorem set_middle (l1 l2 : List Obj) (r m : Obj) :
    (l1 ++ r :: l2).set l1.length m = l1 ++ m :: l2 := by
  rw [List.set_append_right _ _ (le_refl _)]
  simp

theorem eraseIdx_middle (l1 l2 : List Obj) (r : Obj) :
    (l1 ++ r :: l2).eraseIdx l1.length = l1 ++ l2 := by
  rw [List.eraseIdx_append_of_length_le (le_refl _)]
  simp

/-! ### Lemmas: unfolding the handlers at a located match -/

theorem putProduct_found (ps : List Obj) (idStr : String) (body : Obj)
    (i : Nat) (r : Obj) (hi : ps.findIdx? (productIdPred idStr) = some i)
    (hr : ps.get? i = some r) :
    putProduct ps idStr body =
      (.ok (mergeUpdate r body), some (ps.set i (mergeUpdate r body))) := by
  rw [List.get?_eq_getElem?] at hr
  simp [putProduct, hi, hr]

theorem putUser_found (us : List Obj) (idStr : String) (body : Obj)
    (j : Nat) (u : Obj) (hj : us.findIdx? (userIdPred idStr) = some j)
    (hu : us.get? j = some u) :
    putUser us idStr body =
      (.ok (mergeUpdate u body), some (us.set j (mergeUpdate u body))) := by
  rw [List.get?_eq_getElem?] at hu
  simp [putUser, hj, hu]

/-! ### Lemmas: the merged record of an update -/

theorem mergeUpdate_id (r body : Obj) (idv : Value)
    (hid : getField r "id" = some idv) :
    getField (mergeUpdate r body) "id" = some idv := by
  rw [mergeUpdate, getField_setField_self, getFieldU, hid]
  rfl

theorem mergeUpdate_field_of_some (r body : Obj) (f : String) (v : Value)
    (hf : f ≠ "id") (hnd : (body.map Prod.fst).Nodup)
    (h : getField body f = some v) :
    getField (mergeUpdate r body) f = some v := by
  rw [mergeUpdate, getField_setField_ne _ _ _ _ hf]
  exact getField_spreadInto_of_some _ _ _ _ hnd h

theorem mergeUpdate_field_of_none (r body : Obj) (f : String)
    (hf : f ≠ "id") (h : getField body f = none) :
    getField (mergeUpdate r body) f = getField r f := by
  rw [mergeUpdate, getField_setField_ne _ _ _ _ hf]
  exact getField_spreadInto_of_none _ _ _ h

/-! ## The claims -/

/-- Claim C5: `load` (readData) returns the parsed JSON contents of the file
when it parses successfully, and the empty sequence when the file is missing,
unreadable, or contains invalid JSON.  The function is total, so no error
propagates to the caller. -/
theorem claim_c5_readData :
    (∀ records : List Obj, readData (.valid records) = records) ∧
    readData .missing = [] ∧ readData .unreadable = [] ∧
    readData .invalid = [] :=
  ⟨fun _ => rfl, rfl, rfl, rfl⟩

/-- Claim C4: for every products collection and every id path parameter that
parses to NaN, Get, Update and Delete return the not-found signal (and the
write handlers do not write): the strict comparison against stored ids never
succeeds on NaN. -/
theorem claim_c4_nan_not_found (ps : List Obj) (idStr : String) (body : Obj)
    (h : parseIntJS idStr = none) :
    getProductById ps idStr = .notFound "Товар не найден" ∧
    putProduct ps idStr body = (.notFound "Товар не найден", none) ∧
    deleteProduct ps idStr = (.notFound "Товар не найден", none) := by
  have hpred : ∀ p ∈ ps, productIdPred idStr p = false := by
    intro p _
    simp [productIdPred, parseIntValue, h, strictEq_vnan_right]
  have hf : ps.find? (productIdPred idStr) = none :=
    List.find?_eq_none.mpr (fun x hx => by simp [hpred x hx])
  have hfi : ps.findIdx? (productIdPred idStr) = none :=
    findIdx?_none_of_all_false _ _ hpred
  refine ⟨?_, ?_, ?_⟩
  · simp [getProductById, hf]
  · simp [putProduct, hfi]
  · simp [deleteProduct, hfi]

/-- Witness for C4 at the collection [{id: 1}] and the id string "abc". -/
theorem claim_c4_nan_not_found_witness :
    parseIntJS "abc" = none ∧
    (getProductById [[("id", Value.vnum 1)]] "abc" =
        .notFound "Товар не найден" ∧
      putProduct [[("id", Value.vnum 1)]] "abc" [("name", Value.vstr "X")] =
        (.notFound "Товар не найден", none) ∧
      deleteProduct [[("id", Value.vnum 1)]] "abc" =
        (.notFound "Товар не найден", none)) :=
  ⟨by decide, claim_c4_nan_not_found [[("id", Value.vnum 1)]] "abc"
    [("name", Value.vstr "X")] (by decide)⟩

/-- Claim C2: a create whose body carries no id field assigns id 1 on an empty
collection, and id M+1 on a nonempty collection whose maximum id is M. -/
theorem claim_c2_next_id (ps : List Obj) (body : Obj) (ns : List Int) (M : Int)
    (hbody : getField body "id" = none)
    (hids : ps.map (fun p => getFieldU p "id") = ns.map Value.vnum) :
    (ps = [] → ∃ newP, postProduct ps body =
        (.created newP, some (ps ++ [newP])) ∧
        getField newP "id" = some (.vnum 1)) ∧
    (M ∈ ns → (∀ n ∈ ns, n ≤ M) → ∃ newP, postProduct ps body =
        (.created newP, some (ps ++ [newP])) ∧
        getField newP "id" = some (.vnum (M + 1))) := by
  have hnew : ∀ v : Value,
      getField (spreadInto [("id", v)] body) "id" = some v := by
    intro v
    rw [getField_spreadInto_of_none _ _ _ hbody]
    simp [getField_cons]
  constructor
  · rintro rfl
    exact ⟨_, rfl, by rw [hnew]; decide⟩
  · intro hM1 hM2
    have hne : ns ≠ [] := by rintro rfl; cases hM1
    have hlen : 0 < ps.length := by
      have hl := congrArg List.length hids
      simp only [List.length_map] at hl
      rw [hl]
      exact List.length_pos.mpr hne
    have hmax : listMaxInt ns = M :=
      le_antisymm (hM2 _ (listMaxInt_mem ns hne)) (le_listMaxInt ns M hM1)
    have hK : nextIdVal ps = .vnum (M + 1) := by
      rw [nextIdVal_of_ids ps ns hids, if_pos hlen, hmax]
    exact ⟨_, rfl, by rw [hnew, hK]⟩

/-- Witness for C2: creating {name: "B"} into ids {3, 7} assigns id 8. -/
theorem claim_c2_next_id_witness :
    ∃ newP, postProduct [[("id", Value.vnum 3)], [("id", Value.vnum 7)]]
        [("name", Value.vstr "B")] =
      (.created newP,
        some ([[("id", Value.vnum 3)], [("id", Value.vnum 7)]] ++ [newP])) ∧
      getField newP "id" = some (.vnum 8) :=
  (claim_c2_next_id [[("id", Value.vnum 3)], [("id", Value.vnum 7)]]
    [("name", Value.vstr "B")] [3, 7] 7 (by decide) (by decide)).2
    (by decide) (by decide)

/-- Claim C1 is refuted by the code: in `{ id: <next id>, ...req.body }` the
spread comes last, so an id field in the body overrides the computed next id.
Creating with body {id: 1} into a collection already holding id 1 returns a
record whose id is 1 — not the computed next id 2, and not distinct from the
ids present before the call. -/
theorem claim_c1_counterexample :
    nextIdVal [[("id", Value.vnum 1), ("name", Value.vstr "A")]] =
      .vnum 2 ∧
    (postProduct [[("id", Value.vnum 1), ("name", Value.vstr "A")]]
        [("id", Value.vnum 1)]).1 = .created [("id", Value.vnum 1)] ∧
    Value.vnum 1 ∈ [[("id", Value.vnum 1), ("name", Value.vstr "A")]].map
      (fun q => getFieldU q "id") := by
  decide

/-- Claim C1 amended: when the create body carries no id field, the created
and returned record gets the computed next id, which is distinct from every
id present in the collection before the call.  (When the body does carry an
id field, the body id overrides the computed one by spread order and may
collide with existing ids.) -/
theorem claim_c1_fresh_id (ps : List Obj) (body : Obj) (ns : List Int)
    (hbody : getField body "id" = none)
    (hids : ps.map (fun p => getFieldU p "id") = ns.map Value.vnum) :
    ∃ K : Int, ∃ newP, postProduct ps body =
        (.created newP, some (ps ++ [newP])) ∧
      getField newP "id" = some (.vnum K) ∧
      ∀ q ∈ ps, getFieldU q "id" ≠ .vnum K := by
  obtain ⟨K, hK, hfresh⟩ := nextIdVal_fresh ps ns hids
  refine ⟨K, _, rfl, ?_, hfresh⟩
  rw [getField_spreadInto_of_none _ _ _ hbody]
  simp [getField_cons, hK]

/-- Claim C3: a product or user update whose id matches an existing record
stores and returns the shallow merge of the body over the existing record
with the id forced back to the original: body fields win, absent fields keep
their prior value, and the id stays the original id even when the body
carries a different one. -/
theorem claim_c3_update_merge
    (ps us : List Obj) (body ubody : Obj) (idStr uidStr : String)
    (i j : Nat) (r u : Obj) (idv uidv : Value)
    (hnd : (body.map Prod.fst).Nodup)
    (hund : (ubody.map Prod.fst).Nodup)
    (hi : ps.findIdx? (productIdPred idStr) = some i)
    (hr : ps.get? i = some r) (hid : getField r "id" = some idv)
    (hj : us.findIdx? (userIdPred uidStr) = some j)
    (hu : us.get? j = some u) (huid : getField u "id" = some uidv) :
    putProduct ps idStr body =
      (.ok (mergeUpdate r body), some (ps.set i (mergeUpdate r body))) ∧
    getField (mergeUpdate r body) "id" = some idv ∧
    (∀ w : Obj, ∀ f : String, f ≠ "id" →
      (∀ v, getField body f = some v → getField (mergeUpdate w body) f = some v) ∧
      (getField body f = none → getField (mergeUpdate w body) f = getField w f)) ∧
    putUser us uidStr ubody =
      (.ok (mergeUpdate u ubody), some (us.set j (mergeUpdate u ubody))) ∧
    getField (mergeUpdate u ubody) "id" = some uidv ∧
    (∀ w : Obj, ∀ f : String, f ≠ "id" →
      (∀ v, getField ubody f = some v → getField (mergeUpdate w ubody) f = some v) ∧
      (getField ubody f = none → getField (mergeUpdate w ubody) f = getField w f)) :=
  ⟨putProduct_found ps idStr body i r hi hr,
   mergeUpdate_id r body idv hid,
   fun w f hf => ⟨fun v hv => mergeUpdate_field_of_some w body f v hf hnd hv,
     fun hv => mergeUpdate_field_of_none w body f hf hv⟩,
   putUser_found us uidStr ubody j u hj hu,
   mergeUpdate_id u ubody uidv huid,
   fun w f hf => ⟨fun v hv => mergeUpdate_field_of_some w ubody f v hf hund hv,
     fun hv => mergeUpdate_field_of_none w ubody f hf hv⟩⟩

/-- Witness for C3: update id=5 with body {id: 999, name: "X"} keeps id 5,
takes name "X", keeps stock 2; the user update behaves alike. -/
theorem claim_c3_update_merge_witness :
    putProduct [[("id", Value.vnum 5), ("name", Value.vstr "A"),
        ("stock", Value.vnum 2)]] "5"
        [("id", Value.vnum 999), ("name", Value.vstr "X")] =
      (.ok (mergeUpdate [("id", Value.vnum 5), ("name", Value.vstr "A"),
          ("stock", Value.vnum 2)] [("id", Value.vnum 999), ("name", Value.vstr "X")]),
        some [mergeUpdate [("id", Value.vnum 5), ("name", Value.vstr "A"),
          ("stock", Value.vnum 2)] [("id", Value.vnum 999), ("name", Value.vstr "X")]]) ∧
    getField (mergeUpdate [("id", Value.vnum 5), ("name", Value.vstr "A"),
        ("stock", Value.vnum 2)] [("id", Value.vnum 999), ("name", Value.vstr "X")])
      "id" = some (.vnum 5) ∧
    getField (mergeUpdate [("id", Value.vnum 5), ("name", Value.vstr "A"),
        ("stock", Value.vnum 2)] [("id", Value.vnum 999), ("name", Value.vstr "X")])
      "name" = some (.vstr "X") ∧
    getField (mergeUpdate [("id", Value.vnum 5), ("name", Value.vstr "A"),
        ("stock", Value.vnum 2)] [("id", Value.vnum 999), ("name", Value.vstr "X")])
      "stock" = getField [("id", Value.vnum 5), ("name", Value.vstr "A"),
        ("stock", Value.vnum 2)] "stock" ∧
    putUser [[("id", Value.vstr "ab"), ("age", Value.vnum 3)]] "ab"
        [("age", Value.vnum 4)] =
      (.ok (mergeUpdate [("id", Value.vstr "ab"), ("age", Value.vnum 3)]
          [("age", Value.vnum 4)]),
        some [mergeUpdate [("id", Value.vstr "ab"), ("age", Value.vnum 3)]
          [("age", Value.vnum 4)]]) ∧
    getField (mergeUpdate [("id", Value.vstr "ab"), ("age", Value.vnum 3)]
        [("age", Value.vnum 4)]) "id" = some (.vstr "ab") :=
  have h := claim_c3_update_merge
    [[("id", Value.vnum 5), ("name", Value.vstr "A"), ("stock", Value.vnum 2)]]
    [[("id", Value.vstr "ab"), ("age", Value.vnum 3)]]
    [("id", Value.vnum 999), ("name", Value.vstr "X")] [("age", Value.vnum 4)]
    "5" "ab" 0 0
    [("id", Value.vnum 5), ("name", Value.vstr "A"), ("stock", Value.vnum 2)]
    [("id", Value.vstr "ab"), ("age", Value.vnum 3)]
    (.vnum 5) (.vstr "ab")
    (by decide) (by decide) (by decide) (by decide) (by decide)
    (by decide) (by decide) (by decide)
  ⟨h.1, h.2.1,
   (h.2.2.1 _ "name" (by decide)).1 (.vstr "X") (by decide),
   (h.2.2.1 _ "stock" (by decide)).2 (by decide),
   h.2.2.2.1, h.2.2.2.2.1⟩

/-- Claim C6: deleting an absent id returns not-found, and again when
repeated (the store is unchanged); deleting an id with exactly one matching
record removes exactly that record, and repeating the delete then returns
not-found.  Stated for products and users. -/
theorem claim_c6_delete_idempotence
    (ps us l1 l2 m1 m2 : List Obj) (r u : Obj) (idStr uidStr : String)
    (habs : ∀ x ∈ ps, productIdPred idStr x = false)
    (h1 : ∀ x ∈ l1, productIdPred idStr x = false)
    (hrr : productIdPred idStr r = true)
    (h2 : ∀ x ∈ l2, productIdPred idStr x = false)
    (uabs : ∀ x ∈ us, userIdPred uidStr x = false)
    (k1 : ∀ x ∈ m1, userIdPred uidStr x = false)
    (hru : userIdPred uidStr u = true)
    (k2 : ∀ x ∈ m2, userIdPred uidStr x = false) :
    (deleteProduct ps idStr = (.notFound "Товар не найден", none) ∧
     deleteProduct (afterWrite (deleteProduct ps idStr).2 ps) idStr =
       (.notFound "Товар не найден", none)) ∧
    (deleteUser us uidStr = (.notFound "Пользователь не найден", none) ∧
     deleteUser (afterWrite (deleteUser us uidStr).2 us) uidStr =
       (.notFound "Пользователь не найден", none)) ∧
    (deleteProduct (l1 ++ r :: l2) idStr =
       (.okMsg "Товар удален", some (l1 ++ l2)) ∧
     (l1 ++ l2).length + 1 = (l1 ++ r :: l2).length ∧
     deleteProduct (l1 ++ l2) idStr = (.notFound "Товар не найден", none)) ∧
    (deleteUser (m1 ++ u :: m2) uidStr =
       (.okMsg "Пользователь удален", some (m1 ++ m2)) ∧
     (m1 ++ m2).length + 1 = (m1 ++ u :: m2).length ∧
     deleteUser (m1 ++ m2) uidStr =
       (.notFound "Пользователь не найден", none)) := by
  have hdp : deleteProduct ps idStr = (.notFound "Товар не найден", none) := by
    simp [deleteProduct, findIdx?_none_of_all_false _ _ habs]
  have hdu : deleteUser us uidStr = (.notFound "Пользователь не найден", none) := by
    simp [deleteUser, findIdx?_none_of_all_false _ _ uabs]
  have hrest : ∀ x ∈ l1 ++ l2, productIdPred idStr x = false := by
    intro x hx
    rcases List.mem_append.mp hx with hx | hx
    · exact h1 x hx
    · exact h2 x hx
  have urest : ∀ x ∈ m1 ++ m2, userIdPred uidStr x = false := by
    intro x hx
    rcases List.mem_append.mp hx with hx | hx
    · exact k1 x hx
    · exact k2 x hx
  refine ⟨⟨hdp, ?_⟩, ⟨hdu, ?_⟩, ⟨?_, ?_, ?_⟩, ⟨?_, ?_, ?_⟩⟩
  · rw [hdp]
    exact hdp
  · rw [hdu]
    exact hdu
  · simp [deleteProduct, findIdx?_first_match _ l1 l2 r h1 hrr, eraseIdx_middle]
  · simp [List.length_append]
    omega
  · simp [deleteProduct, findIdx?_none_of_all_false _ _ hrest]
  · simp [deleteUser, findIdx?_first_match _ m1 m2 u k1 hru, eraseIdx_middle]
  · simp [List.length_append]
    omega
  · simp [deleteUser, findIdx?_none_of_all_false _ _ urest]

/-- Witness for C6: products [{id: 1}] with id "2" absent, then the
decomposition [{id: 1}] ++ {id: 2} :: [{id: 3}]; users analogously. -/
theorem claim_c6_delete_idempotence_witness :
    (deleteProduct [[("id", Value.vnum 1)]] "2" =
       (.notFound "Товар не найден", none) ∧
     deleteProduct (afterWrite (deleteProduct [[("id", Value.vnum 1)]] "2").2
       [[("id", Value.vnum 1)]]) "2" = (.notFound "Товар не найден", none)) ∧
    (deleteUser [[("id", Value.vstr "ab")]] "cd" =
       (.notFound "Пользователь не найден", none) ∧
     deleteUser (afterWrite (deleteUser [[("id", Value.vstr "ab")]] "cd").2
       [[("id", Value.vstr "ab")]]) "cd" =
       (.notFound "Пользователь не найден", none)) ∧
    (deleteProduct ([[("id", Value.vnum 1)]] ++
         [("id", Value.vnum 2)] :: [[("id", Value.vnum 3)]]) "2" =
       (.okMsg "Товар удален",
        some ([[("id", Value.vnum 1)]] ++ [[("id", Value.vnum 3)]])) ∧
     ([[("id", Value.vnum 1)]] ++ [[("id", Value.vnum 3)]]).length + 1 =
       ([[("id", Value.vnum 1)]] ++
         [("id", Value.vnum 2)] :: [[("id", Value.vnum 3)]]).length ∧
     deleteProduct ([[("id", Value.vnum 1)]] ++ [[("id", Value.vnum 3)]]) "2" =
       (.notFound "Товар не найден", none)) ∧
    (deleteUser ([] ++ [("id", Value.vstr "cd")] :: [[("id", Value.vstr "ef")]])
        "cd" =
       (.okMsg "Пользователь удален", some ([] ++ [[("id", Value.vstr "ef")]])) ∧
     (([] : List Obj) ++ [[("id", Value.vstr "ef")]]).length + 1 =
       (([] : List Obj) ++
         [("id", Value.vstr "cd")] :: [[("id", Value.vstr "ef")]]).length ∧
     deleteUser (([] : List Obj) ++ [[("id", Value.vstr "ef")]]) "cd" =
       (.notFound "Пользователь не найден", none)) :=
  claim_c6_delete_idempotence [[("id", Value.vnum 1)]] [[("id", Value.vstr "ab")]]
    [[("id", Value.vnum 1)]] [[("id", Value.vnum 3)]]
    [] [[("id", Value.vstr "ef")]]
    [("id", Value.vnum 2)] [("id", Value.vstr "cd")] "2" "cd"
    (by decide) (by decide) (by decide) (by decide)
    (by decide) (by decide) (by decide) (by decide)

/-- Claim C7: creating a body without an id field and then getting the
returned id yields exactly the body fields plus the assigned id (the created
record is the id binding followed by the body fields, and Get finds it). -/
theorem claim_c7_round_trip (ps : List Obj) (body : Obj) (ns : List Int)
    (K : Int) (s : String)
    (hbody : getField body "id" = none)
    (hnd : (body.map Prod.fst).Nodup)
    (hids : ps.map (fun p => getFieldU p "id") = ns.map Value.vnum)
    (hK : nextIdVal ps = .vnum K)
    (hs : parseIntJS s = some K) :
    postProduct ps body =
      (.created (("id", Value.vnum K) :: body),
       some (ps ++ [("id", Value.vnum K) :: body])) ∧
    getProductById (ps ++ [("id", Value.vnum K) :: body]) s =
      .ok (("id", Value.vnum K) :: body) := by
  have hkeys : ∀ p ∈ body, p.1 ≠ "id" := (getField_eq_none body "id").mp hbody
  have hshape : spreadInto [("id", Value.vnum K)] body =
      ("id", Value.vnum K) :: body := by
    rw [spreadInto_eq_append _ _ ?_ hnd]
    · rfl
    · intro p hp q hq
      have he : q = ("id", Value.vnum K) := by simpa using hq
      subst he
      exact Ne.symm (hkeys p hp)
  obtain ⟨K2, hK2, hfresh⟩ := nextIdVal_fresh ps ns hids
  have hKK : K2 = K := Value.vnum.inj (hK2.symm.trans hK)
  subst hKK
  have hnone : ps.find? (productIdPred s) = none := by
    rw [List.find?_eq_none]
    intro q hq
    have hne := hfresh q hq
    rw [productIdPred, parseIntValue, hs]
    intro he
    exact hne (by
      have hmem : getFieldU q "id" ∈ ns.map Value.vnum := by
        rw [← hids]
        exact List.mem_map_of_mem _ hq
      rcases List.mem_map.mp hmem with ⟨n, _, hn⟩
      rw [← hn] at he ⊢
      rw [strictEq_vnum_iff] at he
      rw [he])
  have hpred : productIdPred s (("id", Value.vnum K2) :: body) = true := by
    rw [productIdPred, parseIntValue, hs, getFieldU, getField_cons]
    simp [strictEq]
  constructor
  · simp only [postProduct]
    rw [hK2, hshape]
  · simp [getProductById, List.find?_append, hnone, List.find?_cons, hpred]

/-- Witness for C7: create {name: "Chess"} into [{id: 1}], then get "2". -/
theorem claim_c7_round_trip_witness :
    postProduct [[("id", Value.vnum 1)]] [("name", Value.vstr "Chess")] =
      (.created (("id", Value.vnum 2) :: [("name", Value.vstr "Chess")]),
       some ([[("id", Value.vnum 1)]] ++
         [("id", Value.vnum 2) :: [("name", Value.vstr "Chess")]])) ∧
    getProductById ([[("id", Value.vnum 1)]] ++
        [("id", Value.vnum 2) :: [("name", Value.vstr "Chess")]]) "2" =
      .ok (("id", Value.vnum 2) :: [("name", Value.vstr "Chess")]) :=
  claim_c7_round_trip [[("id", Value.vnum 1)]] [("name", Value.vstr "Chess")]
    [1] 2 "2" (by decide) (by decide) (by decide) (by decide) (by decide)

/-- Claim C8: an update or delete on products or users that matches no record
does not call writeData at all, so the stored collection after the operation
is exactly the collection before it. -/
theorem claim_c8_not_found_no_write (ps us : List Obj) (idStr uidStr : String)
    (body ubody : Obj)
    (hp : ∀ x ∈ ps, productIdPred idStr x = false)
    (hu : ∀ x ∈ us, userIdPred uidStr x = false) :
    ((putProduct ps idStr body).2 = none ∧
     afterWrite (putProduct ps idStr body).2 ps = ps) ∧
    ((deleteProduct ps idStr).2 = none ∧
     afterWrite (deleteProduct ps idStr).2 ps = ps) ∧
    ((putUser us uidStr ubody).2 = none ∧
     afterWrite (putUser us uidStr ubody).2 us = us) ∧
    ((deleteUser us uidStr).2 = none ∧
     afterWrite (deleteUser us uidStr).2 us = us) := by
  have hfp := findIdx?_none_of_all_false _ _ hp
  have hfu := findIdx?_none_of_all_false _ _ hu
  refine ⟨⟨?_, ?_⟩, ⟨?_, ?_⟩, ⟨?_, ?_⟩, ⟨?_, ?_⟩⟩ <;>
    simp [putProduct, deleteProduct, putUser, deleteUser, afterWrite, hfp, hfu]

/-- Witness for C8 at [{id: 1}] with id "2" and [{id: "ab"}] with id "cd". -/
theorem claim_c8_not_found_no_write_witness :
    ((putProduct [[("id", Value.vnum 1)]] "2" [("name", Value.vstr "X")]).2 =
        none ∧
     afterWrite (putProduct [[("id", Value.vnum 1)]] "2"
       [("name", Value.vstr "X")]).2 [[("id", Value.vnum 1)]] =
       [[("id", Value.vnum 1)]]) ∧
    ((deleteProduct [[("id", Value.vnum 1)]] "2").2 = none ∧
     afterWrite (deleteProduct [[("id", Value.vnum 1)]] "2").2
       [[("id", Value.vnum 1)]] = [[("id", Value.vnum 1)]]) ∧
    ((putUser [[("id", Value.vstr "ab")]] "cd" [("age", Value.vnum 9)]).2 =
        none ∧
     afterWrite (putUser [[("id", Value.vstr "ab")]] "cd"
       [("age", Value.vnum 9)]).2 [[("id", Value.vstr "ab")]] =
       [[("id", Value.vstr "ab")]]) ∧
    ((deleteUser [[("id", Value.vstr "ab")]] "cd").2 = none ∧
     afterWrite (deleteUser [[("id", Value.vstr "ab")]] "cd").2
       [[("id", Value.vstr "ab")]] = [[("id", Value.vstr "ab")]]) :=
  claim_c8_not_found_no_write [[("id", Value.vnum 1)]] [[("id", Value.vstr "ab")]]
    "2" "cd" [("name", Value.vstr "X")] [("age", Value.vnum 9)]
    (by decide) (by decide)

/-- Claim C9: an id path parameter that starts with digits and continues with
junk, such as "12abc", parses to the digit prefix and matches the record with
that integer id: product Get, Update and Delete succeed rather than return
not-found. -/
theorem claim_c9_leading_digits :
    parseIntJS "12abc" = some 12 ∧
    getProductById [[("id", Value.vnum 12), ("name", Value.vstr "G")]]
      "12abc" = .ok [("id", Value.vnum 12), ("name", Value.vstr "G")] ∧
    putProduct [[("id", Value.vnum 12), ("name", Value.vstr "G")]] "12abc"
        [("name", Value.vstr "H")] =
      (.ok [("id", Value.vnum 12), ("name", Value.vstr "H")],
       some [[("id", Value.vnum 12), ("name", Value.vstr "H")]]) ∧
    deleteProduct [[("id", Value.vnum 12), ("name", Value.vstr "G")]]
      "12abc" = (.okMsg "Товар удален", some []) := by
  decide

/-- Claim C10: a successful update or delete leaves every record other than
the first matched one unchanged and in its relative order; an update keeps
the updated record at its original position. -/
theorem claim_c10_frame (l1 l2 m1 m2 : List Obj) (r u body ubody : Obj)
    (idStr uidStr : String)
    (h1 : ∀ x ∈ l1, productIdPred idStr x = false)
    (hrr : productIdPred idStr r = true)
    (k1 : ∀ x ∈ m1, userIdPred uidStr x = false)
    (hru : userIdPred uidStr u = true) :
    putProduct (l1 ++ r :: l2) idStr body =
      (.ok (mergeUpdate r body), some (l1 ++ mergeUpdate r body :: l2)) ∧
    deleteProduct (l1 ++ r :: l2) idStr =
      (.okMsg "Товар удален", some (l1 ++ l2)) ∧
    putUser (m1 ++ u :: m2) uidStr ubody =
      (.ok (mergeUpdate u ubody), some (m1 ++ mergeUpdate u ubody :: m2)) ∧
    deleteUser (m1 ++ u :: m2) uidStr =
      (.okMsg "Пользователь удален", some (m1 ++ m2)) := by
  have hfp := findIdx?_first_match _ l1 l2 r h1 hrr
  have hfu := findIdx?_first_match _ m1 m2 u k1 hru
  refine ⟨?_, ?_, ?_, ?_⟩
  · rw [putProduct_found _ _ body _ r hfp (get?_middle l1 l2 r), set_middle]
  · simp [deleteProduct, hfp, eraseIdx_middle]
  · rw [putUser_found _ _ ubody _ u hfu (get?_middle m1 m2 u), set_middle]
  · simp [deleteUser, hfu, eraseIdx_middle]

/-- Witness for C10 at small concrete collections. -/
theorem claim_c10_frame_witness :
    putProduct ([[("id", Value.vnum 1)]] ++
        [("id", Value.vnum 2), ("name", Value.vstr "A")] ::
          [[("id", Value.vnum 3)]]) "2" [("name", Value.vstr "B")] =
      (.ok (mergeUpdate [("id", Value.vnum 2), ("name", Value.vstr "A")]
          [("name", Value.vstr "B")]),
       some ([[("id", Value.vnum 1)]] ++
         mergeUpdate [("id", Value.vnum 2), ("name", Value.vstr "A")]
           [("name", Value.vstr "B")] :: [[("id", Value.vnum 3)]])) ∧
    deleteProduct ([[("id", Value.vnum 1)]] ++
        [("id", Value.vnum 2), ("name", Value.vstr "A")] ::
          [[("id", Value.vnum 3)]]) "2" =
      (.okMsg "Товар удален",
       some ([[("id", Value.vnum 1)]] ++ [[("id", Value.vnum 3)]])) ∧
    putUser (([] : List Obj) ++ [("id", Value.vstr "ab")] ::
        [[("id", Value.vstr "cd")]]) "ab" [("name", Value.vstr "N")] =
      (.ok (mergeUpdate [("id", Value.vstr "ab")] [("name", Value.vstr "N")]),
       some (([] : List Obj) ++
         mergeUpdate [("id", Value.vstr "ab")] [("name", Value.vstr "N")] ::
           [[("id", Value.vstr "cd")]])) ∧
    deleteUser (([] : List Obj) ++ [("id", Value.vstr "ab")] ::
        [[("id", Value.vstr "cd")]]) "ab" =
      (.okMsg "Пользователь удален",
       some (([] : List Obj) ++ [[("id", Value.vstr "cd")]])) :=
  claim_c10_frame [[("id", Value.vnum 1)]] [[("id", Value.vnum 3)]]
    [] [[("id", Value.vstr "cd")]]
    [("id", Value.vnum 2), ("name", Value.vstr "A")] [("id", Value.vstr "ab")]
    [("name", Value.vstr "B")] [("name", Value.vstr "N")] "2" "ab"
    (by decide) (by decide) (by decide) (by decide)

/-- Witness for the amended C1 at the collection [{id: 1}]. -/
theorem claim_c1_fresh_id_witness :
    ∃ K : Int, ∃ newP, postProduct [[("id", Value.vnum 1)]]
        [("name", Value.vstr "C")] =
      (.created newP, some ([[("id", Value.vnum 1)]] ++ [newP])) ∧
      getField newP "id" = some (.vnum K) ∧
      ∀ q ∈ [[("id", Value.vnum 1)]], getFieldU q "id" ≠ .vnum K :=
  claim_c1_fresh_id [[("id", Value.vnum 1)]] [("name", Value.vstr "C")] [1]
    (by decide) (by decide)

end FbrShop
